import Mathlib

/-!
Shallow embedding of the group-membership reconciliation engine of
`src/memberTracker.js` (class `MemberTracker`): the eligibility evaluator
`shouldMemberBeInThread`, the candidate builder and its sort, the resumable
batch remover inside `removeInvalidMembers`, and the concurrency-guarded
entry point `checkThreadMembers`.

Member and role identifiers are modelled as `String` (Discord snowflakes);
JavaScript falsiness of an identifier corresponds to the empty string.
Join timestamps are `Int` (millisecond epoch values), role positions `Nat`.
`Array.prototype.sort` is stable (ES2019), so it is modelled by
`List.insertionSort`, which is stable for the same total preorder.
-/

namespace Contentoor

/-- A guild member as observed by the tracker: `guildMember.user.username`,
`guildMember.user.bot`, the role ids in `guildMember.roles.cache`, and
`guildMember.roles.highest.position || 0`. -/
structure GuildMember where
  username : String
  isBot : Bool
  roleIds : List String
  highestRolePosition : Nat
  deriving DecidableEq

/-- One entry of the fetched thread roster (`thread.members.fetch()`):
the thread-member id, `joinedTimestamp || 0`, and the result of
`guild.members.fetch(id)` (`none` when the member left the guild or the
fetch was rejected). -/
structure RosterEntry where
  id : String
  joinedTimestamp : Int
  guildMember : Option GuildMember
  deriving DecidableEq

/-- A removal candidate as pushed onto `membersToCheck` in
`removeInvalidMembers` (src/memberTracker.js lines 287-320).
`highestRolePosition` is `none` exactly for left-guild candidates, which
are built without that field. -/
structure Candidate where
  id : String
  username : String
  highestRolePosition : Option Nat
  joinTimestamp : Int
  shouldRemove : Bool
  reason : String
  deriving DecidableEq

/-- `MemberTracker.shouldMemberBeInThread` (src/memberTracker.js lines
205-225), with the warning log it emits on a missing role mapping.
Checks, in order: any ignored role held, the thread-to-role mapping
(a missing or falsy mapping defaults to permit with a WARN log), then
membership of the required role. -/
def shouldMemberBeInThread (ignoredRoles : List String)
    (requiredRoleId : Option String) (memberRoleIds : List String) :
    Bool × List String :=
  if memberRoleIds.any (fun r => ignoredRoles.contains r) then (true, [])
  else
    match requiredRoleId with
    | none => (true, ["WARN: no role mapping found for thread"])
    | some req =>
      if req = "" then (true, ["WARN: no role mapping found for thread"])
      else (memberRoleIds.contains req, [])

/-- The candidate-building loop of `removeInvalidMembers`
(src/memberTracker.js lines 268-328): roster entries with a falsy id are
skipped; entries whose guild member cannot be resolved become left-guild
candidates; bot accounts are excluded; members failing
`shouldMemberBeInThread` become role-mismatch candidates carrying their
highest role position. -/
def membersToCheck (ignoredRoles : List String) (requiredRoleId : Option String)
    (roster : List RosterEntry) : List Candidate :=
  roster.filterMap fun e =>
    if e.id = "" then none
    else
      match e.guildMember with
      | none =>
        some { id := e.id, username := "Unknown (Left Guild)",
               highestRolePosition := none, joinTimestamp := e.joinedTimestamp,
               shouldRemove := true, reason := "No longer in guild" }
      | some g =>
        if g.isBot then none
        else if (shouldMemberBeInThread ignoredRoles requiredRoleId g.roleIds).1 then none
        else
          some { id := e.id, username := g.username,
                 highestRolePosition := some g.highestRolePosition,
                 joinTimestamp := e.joinedTimestamp,
                 shouldRemove := true, reason := "Role does not match thread" }

/-- The comparator of the sort at src/memberTracker.js line 331,
`(a, b) => b.joinTimestamp - a.joinTimestamp`: descending join timestamp. -/
def joinDesc (a b : Candidate) : Prop :=
  b.joinTimestamp ≤ a.joinTimestamp

instance : DecidableRel joinDesc := fun a b =>
  inferInstanceAs (Decidable (b.joinTimestamp ≤ a.joinTimestamp))

instance : IsTotal Candidate joinDesc :=
  ⟨fun a b => le_total b.joinTimestamp a.joinTimestamp⟩

instance : IsTrans Candidate joinDesc :=
  ⟨fun _ _ _ h1 h2 => le_trans h2 h1⟩

/-- The removal queue built by a fresh pass: `membersToCheck` sorted by
descending join timestamp with a stable sort, as at src/memberTracker.js
lines 330-334. -/
def removalQueue (ignoredRoles : List String) (requiredRoleId : Option String)
    (roster : List RosterEntry) : List Candidate :=
  List.insertionSort joinDesc (membersToCheck ignoredRoles requiredRoleId roster)

/-- The per-thread reconciliation state `threadConfig.removalState`
(src/memberTracker.js lines 253-259 and 334-335): `totalCount` is set to
the length of the freshly built candidate list. -/
structure RemovalState where
  processedCount : Nat
  totalCount : Nat
  remainingMembers : List Candidate
  deriving DecidableEq

/-- The fresh state created at the start of a fresh pass, after the
candidate list `cands` has been built and stored
(src/memberTracker.js lines 253-259, 334-335). -/
def freshState (cands : List Candidate) : RemovalState :=
  { processedCount := 0, totalCount := cands.length, remainingMembers := cands }

/-- `const BATCH_SIZE = 50` (src/memberTracker.js line 349). -/
def BATCH_SIZE : Nat := 50

/-- The authority-gate test of the removal loop (src/memberTracker.js
lines 406-409): a candidate is denied removal exactly when its username is
not the left-guild marker, the bot member was resolved, the candidate has
a numeric highest role position, and the bot's highest role position is
not strictly greater than the candidate's. -/
def authorityDenied (botPos : Option Nat) (c : Candidate) : Bool :=
  match botPos, c.highestRolePosition with
  | some bp, some p => (c.username != "Unknown (Left Guild)") && decide (bp ≤ p)
  | _, _ => false

/-- Outcome of processing one candidate of the current batch
(src/memberTracker.js lines 391-433): whether `processedCount` was
incremented, whether a removal call was issued, and whether it succeeded. -/
structure ProcOutcome where
  procInc : Bool
  attempted : Bool
  removed : Bool
  deriving DecidableEq

/-- One iteration of the removal loop (src/memberTracker.js lines
391-433): a falsy-id candidate is skipped outright; a candidate not
marked for removal is counted as processed; a candidate denied by the
authority gate is counted as processed without a removal call; otherwise
the removal call is issued and `processedCount` is incremented only on
success (`removeOk` gives the outcome of `thread.members.remove`). -/
def processOne (botPos : Option Nat) (removeOk : String → Bool)
    (c : Candidate) : ProcOutcome :=
  if c.id = "" then ⟨false, false, false⟩
  else if c.shouldRemove = false then ⟨true, false, false⟩
  else if authorityDenied botPos c then ⟨true, false, false⟩
  else if removeOk c.id then ⟨true, true, true⟩
  else ⟨false, true, false⟩

/-- Total number of `processedCount` increments accumulated by the removal
loop over a batch. -/
def batchProcessed (botPos : Option Nat) (removeOk : String → Bool)
    (batch : List Candidate) : Nat :=
  (batch.filter (fun c => (processOne botPos removeOk c).procInc)).length

/-- Ids of the candidates of a batch whose removal call succeeded, in
batch order. -/
def batchRemovedIds (botPos : Option Nat) (removeOk : String → Bool)
    (batch : List Candidate) : List String :=
  (batch.filter (fun c => (processOne botPos removeOk c).removed)).map Candidate.id

/-- Ids of the candidates of a batch for which a removal call was issued,
in batch order. -/
def batchAttemptedIds (botPos : Option Nat) (removeOk : String → Bool)
    (batch : List Candidate) : List String :=
  (batch.filter (fun c => (processOne botPos removeOk c).attempted)).map Candidate.id

/-- Result of one batch application: the surviving reconciliation state
(`none` when the state was deleted), the removed ids, and the ids for
which a removal call was issued. -/
structure InvocationOutcome where
  state : Option RemovalState
  removedIds : List String
  attemptedIds : List String

/-- The batch-consuming portion of `removeInvalidMembers`
(src/memberTracker.js lines 374-449): slice up to `batchSize` candidates
off the front of `remainingMembers`; an empty batch deletes the state
(lines 381-386); otherwise the batch is processed and the state is
deleted when the remaining queue is exhausted (lines 442-446), else
persisted with the updated counters. -/
def applyBatch (batchSize : Nat) (botPos : Option Nat)
    (removeOk : String → Bool) (s : RemovalState) : InvocationOutcome :=
  let currentBatch := s.remainingMembers.take batchSize
  let rest := s.remainingMembers.drop batchSize
  if currentBatch.isEmpty then
    { state := none, removedIds := [], attemptedIds := [] }
  else
    let s2 : RemovalState :=
      { processedCount := s.processedCount + batchProcessed botPos removeOk currentBatch,
        totalCount := s.totalCount,
        remainingMembers := rest }
    { state := if rest.isEmpty then none else some s2,
      removedIds := batchRemovedIds botPos removeOk currentBatch,
      attemptedIds := batchAttemptedIds botPos removeOk currentBatch }

/-- Cumulative result of repeated invocations of the batch remover. -/
structure RunOutcome where
  state : Option RemovalState
  removedIds : List String
  attemptedIds : List String

/-- Runs the batch remover for up to `k` successive invocations starting
from state `s`, stopping when the state is deleted, and concatenating the
removed and attempted ids of the invocations. -/
def runInvocations (batchSize : Nat) (botPos : Option Nat)
    (removeOk : String → Bool) : Nat → RemovalState → RunOutcome
  | 0, s => { state := some s, removedIds := [], attemptedIds := [] }
  | k + 1, s =>
    let out := applyBatch batchSize botPos removeOk s
    match out.state with
    | none => { state := none, removedIds := out.removedIds,
                attemptedIds := out.attemptedIds }
    | some s2 =>
      let rest := runInvocations batchSize botPos removeOk k s2
      { state := rest.state,
        removedIds := out.removedIds ++ rest.removedIds,
        attemptedIds := out.attemptedIds ++ rest.attemptedIds }

/-- External outcomes one call of `removeInvalidMembers` depends on: the
roster fetch (`none` models a rejected `thread.members.fetch()`, which the
code converts to an empty map), the bot member's highest role position
(`none` when `guild.members.me` is null), and the per-member outcome of
`thread.members.remove`. -/
structure PassEnv where
  roster : Option (List RosterEntry)
  botPos : Option Nat
  removeOk : String → Bool

/-- `MemberTracker.removeInvalidMembers` (src/memberTracker.js lines
227-455) for one thread, given its current reconciliation state `st0`:
a failed or empty roster fetch returns with the state untouched
(line 243); a fresh pass (no existing state) builds the sorted candidate
queue and deletes the state immediately when it is empty (lines 339-345),
otherwise processes the first batch; a continuation processes the next
batch of the persisted state. Returns the new state and the removed ids. -/
def removeInvalidMembers (env : PassEnv) (ignoredRoles : List String)
    (requiredRoleId : Option String) (st0 : Option RemovalState) :
    Option RemovalState × List String :=
  let threadMembers := env.roster.getD []
  if threadMembers.isEmpty then (st0, [])
  else
    match st0 with
    | some s =>
      let out := applyBatch BATCH_SIZE env.botPos env.removeOk s
      (out.state, out.removedIds)
    | none =>
      let cands := removalQueue ignoredRoles requiredRoleId threadMembers
      if cands.isEmpty then (none, [])
      else
        let out := applyBatch BATCH_SIZE env.botPos env.removeOk (freshState cands)
        (out.state, out.removedIds)

/-- Per-thread configuration entry of `trackedThreads`
(src/memberTracker.js lines 58-64): the last-check timestamp and the
optional reconciliation state. -/
structure ThreadConfig where
  lastCheck : Nat
  removalState : Option RemovalState
  deriving DecidableEq

/-- Tracker state relevant to the entry point: the `processingThreads`
set and the `trackedThreads` map, as association list. -/
structure TrackerState where
  processingThreads : List String
  trackedThreads : List (String × ThreadConfig)
  deriving DecidableEq

/-- `this.trackedThreads.get(threadId)`. -/
def lookupConfig (tid : String) (l : List (String × ThreadConfig)) :
    Option ThreadConfig :=
  (l.find? (fun p => p.1 == tid)).map (fun p => p.2)

/-- `this.trackedThreads.set(threadId, cfg)`. -/
def setConfig (tid : String) (cfg : ThreadConfig)
    (l : List (String × ThreadConfig)) : List (String × ThreadConfig) :=
  if l.any (fun p => p.1 == tid) then
    l.map (fun p => if p.1 == tid then (tid, cfg) else p)
  else l ++ [(tid, cfg)]

/-- External outcomes one trigger of `checkThreadMembers` depends on:
whether the thread fetch and its validity checks (src/memberTracker.js
lines 127-151) succeed, the pass environment, and the current time. -/
structure TriggerEnv where
  threadFetchOk : Bool
  roster : Option (List RosterEntry)
  botPos : Option Nat
  removeOk : String → Bool
  now : Nat

/-- `MemberTracker.checkThreadMembers` (src/memberTracker.js lines
108-181), the concurrency-guarded per-thread entry point: a thread
already in `processingThreads` is skipped as a no-op (lines 110-113);
otherwise the thread id is added to the set, and every exit path —
missing configuration, failed thread fetch, or completed pass — removes
it again (explicit deletes and the `finally` block). A completed pass
writes back the new reconciliation state and last-check timestamp. -/
def checkThreadMembers (env : TriggerEnv) (ignoredRoles : List String)
    (requiredRoleId : Option String) (tid : String) (st : TrackerState) :
    TrackerState × List String :=
  if st.processingThreads.contains tid then (st, [])
  else
    let acquired : TrackerState :=
      { st with processingThreads := tid :: st.processingThreads }
    match lookupConfig tid acquired.trackedThreads with
    | none =>
      ({ acquired with
          processingThreads := acquired.processingThreads.erase tid }, [])
    | some cfg =>
      if env.threadFetchOk = false then
        ({ acquired with
            processingThreads := acquired.processingThreads.erase tid }, [])
      else
        let passEnv : PassEnv :=
          { roster := env.roster, botPos := env.botPos, removeOk := env.removeOk }
        let out := removeInvalidMembers passEnv ignoredRoles requiredRoleId
          cfg.removalState
        let cfg2 : ThreadConfig := { lastCheck := env.now, removalState := out.1 }
        ({ processingThreads := acquired.processingThreads.erase tid,
           trackedThreads := setConfig tid cfg2 acquired.trackedThreads }, out.2)

/-- The documented per-pass counter invariant: the processed count plus the
pending queue never exceeds the target count. It holds of the fresh state
and is preserved by every batch application. -/
def stateInv (s : RemovalState) : Prop :=
  s.processedCount + s.remainingMembers.length ≤ s.totalCount

instance (s : RemovalState) : Decidable (stateInv s) :=
  inferInstanceAs
    (Decidable (s.processedCount + s.remainingMembers.length ≤ s.totalCount))

/-! ### Concrete data for the scenario of the spec and for witnesses -/

/-- Member A of the scenario: holds the required role R. -/
def gmA : GuildMember :=
  { username := "A", isBot := false, roleIds := ["R"], highestRolePosition := 1 }

/-- Member B of the scenario: lacks R, authority 3. -/
def gmB : GuildMember :=
  { username := "B", isBot := false, roleIds := ["X"], highestRolePosition := 3 }

/-- Member D of the scenario: lacks R, authority 7. -/
def gmD : GuildMember :=
  { username := "D", isBot := false, roleIds := ["X"], highestRolePosition := 7 }

/-- The scenario roster of the spec, with concrete join timestamps:
A joined at 10, B at 200, C (who left the parent scope) at 100, D at 70. -/
def demoRoster : List RosterEntry :=
  [ { id := "A", joinedTimestamp := 10, guildMember := some gmA },
    { id := "B", joinedTimestamp := 200, guildMember := some gmB },
    { id := "C", joinedTimestamp := 100, guildMember := none },
    { id := "D", joinedTimestamp := 70, guildMember := some gmD } ]

/-- A role-mismatch candidate used by witnesses, authority 3. -/
def candMismatch : Candidate :=
  { id := "B", username := "B", highestRolePosition := some 3,
    joinTimestamp := 200, shouldRemove := true,
    reason := "Role does not match thread" }

/-- A left-guild candidate used by witnesses. -/
def candLeft : Candidate :=
  { id := "C", username := "Unknown (Left Guild)",
    highestRolePosition := none, joinTimestamp := 100,
    shouldRemove := true, reason := "No longer in guild" }

/-- A role-mismatch candidate with a very high authority, used by the
witness of the missing-bot-member claim. -/
def candHighAuthority : Candidate :=
  { id := "E", username := "E", highestRolePosition := some 1000,
    joinTimestamp := 5, shouldRemove := true,
    reason := "Role does not match thread" }

/-- A two-candidate queue used by witnesses. -/
def wQueue : List Candidate := [candLeft, candMismatch]

/-- A guild member whose username is literally the left-guild marker
string: a legal username, lacking the required role, with authority 100. -/
def gmImpostor : GuildMember :=
  { username := "Unknown (Left Guild)", isBot := false, roleIds := ["X"],
    highestRolePosition := 100 }

/-- A roster containing only the sentinel-named guild member. -/
def impostorRoster : List RosterEntry :=
  [ { id := "Z", joinedTimestamp := 50, guildMember := some gmImpostor } ]

/-- The candidate the builder produces from `impostorRoster`: the
sentinel username together with a numeric authority level. -/
def candImpostor : Candidate :=
  { id := "Z", username := "Unknown (Left Guild)",
    highestRolePosition := some 100, joinTimestamp := 50,
    shouldRemove := true, reason := "Role does not match thread" }

/-- Removal-call outcome function that always succeeds. -/
def removeAlwaysSucceeds : String → Bool := fun _ => true

/-- Removal-call outcome function that always fails. -/
def removeAlwaysFails : String → Bool := fun _ => false

/-- A pass environment whose roster fetch fails. -/
def failEnv : PassEnv :=
  { roster := none, botPos := some 10, removeOk := removeAlwaysSucceeds }

/-- A pass environment whose roster is the scenario roster. -/
def demoEnv : PassEnv :=
  { roster := some demoRoster, botPos := some 10,
    removeOk := removeAlwaysSucceeds }

/-- A pass environment with an empty roster. -/
def emptyRosterEnv : PassEnv :=
  { roster := some [], botPos := some 10, removeOk := removeAlwaysSucceeds }

/-- A trigger environment used by witnesses. -/
def wTriggerEnv : TriggerEnv :=
  { threadFetchOk := true, roster := some [], botPos := some 10,
    removeOk := removeAlwaysSucceeds, now := 42 }

/-- A tracker state in which thread t1 is already being processed. -/
def wLockedState : TrackerState :=
  { processingThreads := ["t1"],
    trackedThreads := [("t1", { lastCheck := 0, removalState := none })] }

/-! ### Basic lemmas about the batch remover -/

theorem batchRemovedIds_append (bp : Option Nat) (ok : String → Bool)
    (l1 l2 : List Candidate) :
    batchRemovedIds bp ok (l1 ++ l2) =
      batchRemovedIds bp ok l1 ++ batchRemovedIds bp ok l2 := by
  simp [batchRemovedIds, List.filter_append]

theorem batchAttemptedIds_append (bp : Option Nat) (ok : String → Bool)
    (l1 l2 : List Candidate) :
    batchAttemptedIds bp ok (l1 ++ l2) =
      batchAttemptedIds bp ok l1 ++ batchAttemptedIds bp ok l2 := by
  simp [batchAttemptedIds, List.filter_append]

theorem batchProcessed_le (bp : Option Nat) (ok : String → Bool)
    (l : List Candidate) : batchProcessed bp ok l ≤ l.length :=
  List.length_filter_le _ _

theorem applyBatch_of_nil (batchSize : Nat) (bp : Option Nat)
    (ok : String → Bool) (s : RemovalState) (h : s.remainingMembers = []) :
    applyBatch batchSize bp ok s = ⟨none, [], []⟩ := by
  simp [applyBatch, h]

theorem applyBatch_of_le (batchSize : Nat) (bp : Option Nat)
    (ok : String → Bool) (s : RemovalState) (hne : s.remainingMembers ≠ [])
    (hle : s.remainingMembers.length ≤ batchSize) :
    applyBatch batchSize bp ok s =
      ⟨none, batchRemovedIds bp ok s.remainingMembers,
        batchAttemptedIds bp ok s.remainingMembers⟩ := by
  have ht : s.remainingMembers.take batchSize = s.remainingMembers :=
    List.take_of_length_le hle
  have hd : s.remainingMembers.drop batchSize = [] :=
    List.drop_eq_nil_of_le hle
  simp [applyBatch, ht, hd, hne]

theorem applyBatch_of_lt (batchSize : Nat) (bp : Option Nat)
    (ok : String → Bool) (s : RemovalState) (hB : 0 < batchSize)
    (hlt : batchSize < s.remainingMembers.length) :
    applyBatch batchSize bp ok s =
      ⟨some { processedCount :=
                s.processedCount +
                  batchProcessed bp ok (s.remainingMembers.take batchSize),
              totalCount := s.totalCount,
              remainingMembers := s.remainingMembers.drop batchSize },
        batchRemovedIds bp ok (s.remainingMembers.take batchSize),
        batchAttemptedIds bp ok (s.remainingMembers.take batchSize)⟩ := by
  have h1 : s.remainingMembers.take batchSize ≠ [] := by
    apply List.ne_nil_of_length_pos
    rw [List.length_take]
    omega
  have h2 : s.remainingMembers.drop batchSize ≠ [] := by
    apply List.ne_nil_of_length_pos
    rw [List.length_drop]
    omega
  simp [applyBatch, h1, h2]

theorem runInvocations_complete (B : Nat) (bp : Option Nat)
    (ok : String → Bool) (hB : 0 < B) :
    ∀ (k : Nat) (s : RemovalState), 1 ≤ k →
      s.remainingMembers.length ≤ k * B →
      runInvocations B bp ok k s =
        ⟨none, batchRemovedIds bp ok s.remainingMembers,
          batchAttemptedIds bp ok s.remainingMembers⟩ := by
  intro k
  induction k with
  | zero => intro s h1 _; omega
  | succ k ih =>
    intro s _ hlen
    by_cases hnil : s.remainingMembers = []
    · rw [runInvocations, applyBatch_of_nil B bp ok s hnil]
      simp [hnil, batchRemovedIds, batchAttemptedIds]
    · by_cases hle : s.remainingMembers.length ≤ B
      · rw [runInvocations, applyBatch_of_le B bp ok s hnil hle]
      · push_neg at hle
        rw [runInvocations, applyBatch_of_lt B bp ok s hB hle]
        have hk1 : 1 ≤ k := by
          rcases Nat.eq_zero_or_pos k with hk | hk
          · subst hk; rw [Nat.one_mul] at hlen; omega
          · exact hk
        rw [Nat.succ_mul] at hlen
        have hrec := ih
          { processedCount :=
              s.processedCount +
                batchProcessed bp ok (s.remainingMembers.take B),
            totalCount := s.totalCount,
            remainingMembers := s.remainingMembers.drop B } hk1
          (by rw [List.length_drop]; omega)
        simp only [hrec]
        rw [← batchRemovedIds_append, ← batchAttemptedIds_append,
          List.take_append_drop]

theorem runInvocations_incomplete (B : Nat) (bp : Option Nat)
    (ok : String → Bool) (hB : 0 < B) :
    ∀ (k : Nat) (s : RemovalState), k * B < s.remainingMembers.length →
      ∃ s2, (runInvocations B bp ok k s).state = some s2 ∧
        s2.remainingMembers = s.remainingMembers.drop (k * B) := by
  intro k
  induction k with
  | zero =>
    intro s _
    exact ⟨s, rfl, by simp⟩
  | succ k ih =>
    intro s hlen
    rw [Nat.succ_mul] at hlen
    have hlt : B < s.remainingMembers.length := by omega
    rw [runInvocations, applyBatch_of_lt B bp ok s hB hlt]
    have hrec := ih
      { processedCount :=
          s.processedCount + batchProcessed bp ok (s.remainingMembers.take B),
        totalCount := s.totalCount,
        remainingMembers := s.remainingMembers.drop B }
      (by rw [List.length_drop]; omega)
    obtain ⟨s2, hst, hrem⟩ := hrec
    refine ⟨s2, hst, ?_⟩
    rw [hrem]
    simp only [List.drop_drop]
    rw [Nat.succ_mul, Nat.add_comm]

theorem runInvocations_attemptedIds (B : Nat) (bp : Option Nat)
    (ok : String → Bool) (hB : 0 < B) :
    ∀ (k : Nat) (s : RemovalState),
      (runInvocations B bp ok k s).attemptedIds =
        batchAttemptedIds bp ok (s.remainingMembers.take (k * B)) := by
  intro k
  induction k with
  | zero =>
    intro s
    simp [runInvocations, batchAttemptedIds]
  | succ k ih =>
    intro s
    by_cases hnil : s.remainingMembers = []
    · rw [runInvocations, applyBatch_of_nil B bp ok s hnil]
      simp [hnil, batchAttemptedIds]
    · by_cases hle : s.remainingMembers.length ≤ B
      · rw [runInvocations, applyBatch_of_le B bp ok s hnil hle]
        have ht : s.remainingMembers.take ((k + 1) * B) = s.remainingMembers :=
          List.take_of_length_le (le_trans hle (by
            rw [Nat.succ_mul]; omega))
        rw [ht]
      · push_neg at hle
        rw [runInvocations, applyBatch_of_lt B bp ok s hB hle]
        have hrec := ih
          { processedCount :=
              s.processedCount +
                batchProcessed bp ok (s.remainingMembers.take B),
            totalCount := s.totalCount,
            remainingMembers := s.remainingMembers.drop B }
        simp only [hrec]
        rw [← batchAttemptedIds_append, ← List.take_add,
          Nat.succ_mul, Nat.add_comm]

theorem applyBatch_state_some (batchSize : Nat) (bp : Option Nat)
    (ok : String → Bool) (s s2 : RemovalState)
    (h : (applyBatch batchSize bp ok s).state = some s2) :
    0 < batchSize ∧ batchSize < s.remainingMembers.length ∧
    s2 = { processedCount :=
             s.processedCount +
               batchProcessed bp ok (s.remainingMembers.take batchSize),
           totalCount := s.totalCount,
           remainingMembers := s.remainingMembers.drop batchSize } := by
  by_cases h1 : s.remainingMembers.take batchSize = []
  · rw [applyBatch] at h
    simp [h1] at h
  · by_cases h2 : s.remainingMembers.drop batchSize = []
    · rw [applyBatch] at h
      simp [h1, h2] at h
    · rw [applyBatch] at h
      simp [h1, h2] at h
      have h3 : ¬(batchSize = 0 ∨ s.remainingMembers = []) := by
        rw [← List.take_eq_nil_iff]
        exact h1
      push_neg at h3
      have h4 : batchSize < s.remainingMembers.length := by
        have h5 : (s.remainingMembers.drop batchSize).length ≠ 0 := by
          intro hh
          exact h2 (List.eq_nil_of_length_eq_zero hh)
        rw [List.length_drop] at h5
        omega
      exact ⟨Nat.pos_of_ne_zero h3.1, h4, h.symm⟩

theorem find?_map_setKey (tid tid2 : String) (cfg : ThreadConfig)
    (h : tid2 ≠ tid) :
    ∀ l : List (String × ThreadConfig),
      (l.map (fun p => if p.1 == tid then (tid, cfg) else p)).find?
          (fun p => p.1 == tid2) =
        l.find? (fun p => p.1 == tid2) := by
  intro l
  induction l with
  | nil => rfl
  | cons p rest ih =>
    simp only [List.map_cons]
    by_cases hp : (p.1 == tid) = true
    · have hps : p.1 = tid := eq_of_beq hp
      have hh1 : (tid == tid2) = false := by
        simp only [beq_eq_false_iff_ne]
        exact Ne.symm h
      have hh2 : (p.1 == tid2) = false := by
        rw [hps]
        exact hh1
      rw [if_pos hp, List.find?_cons, List.find?_cons]
      simp only [hh1, hh2]
      exact ih
    · rw [if_neg hp, List.find?_cons, List.find?_cons]
      by_cases hm : (p.1 == tid2) = true
      · simp only [hm]
      · simp only [Bool.not_eq_true] at hm
        simp only [hm]
        exact ih

theorem find?_append_setKey (tid tid2 : String) (cfg : ThreadConfig)
    (h : tid2 ≠ tid) :
    ∀ l : List (String × ThreadConfig),
      (l ++ [(tid, cfg)]).find? (fun p => p.1 == tid2) =
        l.find? (fun p => p.1 == tid2) := by
  intro l
  induction l with
  | nil =>
    have hh1 : (tid == tid2) = false := by
      simp only [beq_eq_false_iff_ne]
      exact Ne.symm h
    simp only [List.nil_append, List.find?_cons]
    simp only [hh1]
  | cons p rest ih =>
    rw [List.cons_append, List.find?_cons, List.find?_cons]
    by_cases hm : (p.1 == tid2) = true
    · simp only [hm]
    · simp only [Bool.not_eq_true] at hm
      simp only [hm]
      exact ih

theorem lookupConfig_setConfig_ne (tid tid2 : String) (cfg : ThreadConfig)
    (l : List (String × ThreadConfig)) (h : tid2 ≠ tid) :
    lookupConfig tid2 (setConfig tid cfg l) = lookupConfig tid2 l := by
  unfold lookupConfig setConfig
  by_cases ha : l.any (fun p => p.1 == tid)
  · rw [if_pos ha, find?_map_setKey tid tid2 cfg h l]
  · rw [if_neg ha, find?_append_setKey tid tid2 cfg h l]

/-! ### Claim theorems -/

/-- Claim C1, counterexample: on the scenario roster (B with role mismatch and
authority 3 joined at t=200, C who left the parent scope joined at t=100,
D with role mismatch and authority 7 joined at t=70), the queue built by
the fresh pass is [B, C, D], not the [C, D, B] the claim requires: the
code orders candidates by descending join timestamp only, without putting
left-scope candidates first and without ordering by authority. -/
theorem C1_counterexample :
    (removalQueue [] (some "R") demoRoster).map Candidate.id = ["B", "C", "D"] ∧
    ¬ (removalQueue [] (some "R") demoRoster).map Candidate.id =
        ["C", "D", "B"] := by
  exact ⟨by decide, by decide⟩

/-- Claim C1 as amended: on every fresh pass the candidate builder orders the
removal queue by descending join timestamp alone — a stable sort of the
built candidate list, with no partition by removal reason and no
authority-based ordering; the queue is a permutation of the built
candidates, sorted so that later joiners come first. -/
theorem C1_queue_sorted_desc (ignoredRoles : List String)
    (requiredRoleId : Option String) (roster : List RosterEntry) :
    List.Sorted joinDesc (removalQueue ignoredRoles requiredRoleId roster) ∧
    (removalQueue ignoredRoles requiredRoleId roster).Perm
      (membersToCheck ignoredRoles requiredRoleId roster) :=
  ⟨List.sorted_insertionSort joinDesc _, List.perm_insertionSort joinDesc _⟩

/-- Claim C2, counterexample: the gate keys on the username sentinel, not
on presence of an authority level. A fresh pass over a roster containing
a guild member literally named "Unknown (Left Guild)" who lacks the
required role builds a candidate with that username and authority level
100; against an enforcing authority of 5, the removal call is issued and
succeeds although 100 is not below 5 — falsifying both the claimed gate
condition and the claimed invariant that no removal call is ever issued
for a candidate whose authority-level is at least the enforcing one. -/
theorem C2_counterexample :
    removalQueue [] (some "R") impostorRoster = [candImpostor] ∧
    candImpostor.highestRolePosition = some 100 ∧
    (processOne (some 5) removeAlwaysSucceeds candImpostor).attempted = true ∧
    (processOne (some 5) removeAlwaysSucceeds candImpostor).removed = true ∧
    ¬ 100 < 5 :=
  ⟨by decide, by decide, by decide, by decide, by decide⟩

/-- Claim C2 as amended: for every processed candidate (valid id, marked
for removal) when the enforcing bot's authority is known, the gate tests
the candidate's username against the sentinel string rather than the
presence of an authority level: a candidate whose username is
"Unknown (Left Guild)" — in particular every LeftParentScope candidate,
which is built with that username — bypasses the gate and the removal
call is issued unconditionally; a candidate with any other username and
no authority level also passes; a candidate with any other username and
authority level `p` leads to a removal call if and only if `p` is
strictly below the enforcing authority, and on denial it is counted as
processed with no removal call issued. Hence no removal call is issued
for a candidate whose username is not the sentinel and whose
authority-level is at least the enforcing authority. -/
theorem C2_gate_username_keyed (bp : Nat) (ok : String → Bool) (c : Candidate)
    (hid : c.id ≠ "") (hsr : c.shouldRemove = true) :
    (c.username = "Unknown (Left Guild)" →
      (processOne (some bp) ok c).attempted = true) ∧
    (c.username ≠ "Unknown (Left Guild)" → c.highestRolePosition = none →
      (processOne (some bp) ok c).attempted = true) ∧
    (∀ p, c.username ≠ "Unknown (Left Guild)" →
      c.highestRolePosition = some p →
      ((processOne (some bp) ok c).attempted = true ↔ p < bp)) ∧
    (∀ p, c.username ≠ "Unknown (Left Guild)" →
      c.highestRolePosition = some p → bp ≤ p →
      processOne (some bp) ok c = ⟨true, false, false⟩) := by
  refine ⟨?_, ?_, ?_, ?_⟩
  · intro hu
    have hbu : (c.username != "Unknown (Left Guild)") = false := by
      simp [bne_iff_ne, hu]
    have hden : authorityDenied (some bp) c = false := by
      unfold authorityDenied
      cases c.highestRolePosition with
      | none => rfl
      | some p => simp [hbu]
    simp only [processOne, if_neg hid, hsr, hden]
    by_cases hok : ok c.id = true <;> simp [hok]
  · intro _ hp
    have hden : authorityDenied (some bp) c = false := by
      unfold authorityDenied
      rw [hp]
    simp only [processOne, if_neg hid, hsr, hden]
    by_cases hok : ok c.id = true <;> simp [hok]
  · intro p hu hp
    have hbu : (c.username != "Unknown (Left Guild)") = true := by
      simp [bne_iff_ne, hu]
    by_cases hle : bp ≤ p
    · have hden : authorityDenied (some bp) c = true := by
        unfold authorityDenied
        rw [hp]
        simp [hbu, hle]
      simp only [processOne, if_neg hid, hsr, hden]
      simp
      omega
    · have hden : authorityDenied (some bp) c = false := by
        unfold authorityDenied
        rw [hp]
        simp [hle]
      simp only [processOne, if_neg hid, hsr, hden]
      by_cases hok : ok c.id = true <;> simp [hok] <;> omega
  · intro p hu hp hle
    have hbu : (c.username != "Unknown (Left Guild)") = true := by
      simp [bne_iff_ne, hu]
    have hden : authorityDenied (some bp) c = true := by
      unfold authorityDenied
      rw [hp]
      simp [hbu, hle]
    simp [processOne, if_neg hid, hsr, hden]

/-- Claim C2, witness: a role-mismatch candidate named B with authority 3
is removed exactly when the enforcing authority 5 is strictly greater. -/
theorem C2_gate_username_keyed_witness :
    (processOne (some 5) removeAlwaysSucceeds candMismatch).attempted = true ↔
      3 < 5 :=
  (C2_gate_username_keyed 5 removeAlwaysSucceeds candMismatch (by decide)
    (by decide)).2.2.1 3 (by decide) (by decide)

/-- Claim C8: the eligibility check decides in order: any ignored role held
gives eligibility with no warning; with no ignored role held and a
missing (or falsy) required-role mapping it default-permits and logs a
warning; otherwise it is eligible exactly when the member holds the
mapped required role, with no warning. -/
theorem C8_eligibility_order (ignoredRoles : List String)
    (requiredRoleId : Option String) (memberRoleIds : List String) :
    (memberRoleIds.any (fun r => ignoredRoles.contains r) = true →
      shouldMemberBeInThread ignoredRoles requiredRoleId memberRoleIds =
        (true, [])) ∧
    (memberRoleIds.any (fun r => ignoredRoles.contains r) = false →
      (requiredRoleId = none ∨ requiredRoleId = some "") →
      shouldMemberBeInThread ignoredRoles requiredRoleId memberRoleIds =
        (true, ["WARN: no role mapping found for thread"])) ∧
    (∀ req, memberRoleIds.any (fun r => ignoredRoles.contains r) = false →
      requiredRoleId = some req → req ≠ "" →
      shouldMemberBeInThread ignoredRoles requiredRoleId memberRoleIds =
        (memberRoleIds.contains req, [])) := by
  refine ⟨?_, ?_, ?_⟩
  · intro h
    unfold shouldMemberBeInThread
    rw [if_pos h]
  · intro h hr
    have hc : ¬((memberRoleIds.any fun r => ignoredRoles.contains r) = true) := by
      rw [h]
      exact Bool.false_ne_true
    unfold shouldMemberBeInThread
    rw [if_neg hc]
    rcases hr with hr | hr <;> subst hr
    · rfl
    · rfl
  · intro req h hr hne
    subst hr
    have hc : ¬((memberRoleIds.any fun r => ignoredRoles.contains r) = true) := by
      rw [h]
      exact Bool.false_ne_true
    unfold shouldMemberBeInThread
    rw [if_neg hc]
    show (if req = "" then ((true : Bool), ["WARN: no role mapping found for thread"])
      else (memberRoleIds.contains req, [])) = (memberRoleIds.contains req, [])
    rw [if_neg hne]

/-- Claim C8, witness: a member holding the ignored role I is eligible for any
thread with no warning logged. -/
theorem C8_eligibility_order_witness :
    shouldMemberBeInThread ["I"] (some "R") ["I", "X"] = (true, []) :=
  (C8_eligibility_order ["I"] (some "R") ["I", "X"]).1 (by decide)

/-- Claim C9: when the fresh pass yields zero removal candidates — including
the empty-roster case — no reconciliation state exists after the pass
and no removal is performed. -/
theorem C9_zero_candidates (env : PassEnv) (ignoredRoles : List String)
    (requiredRoleId : Option String)
    (h : removalQueue ignoredRoles requiredRoleId (env.roster.getD []) = []) :
    removeInvalidMembers env ignoredRoles requiredRoleId none = (none, []) := by
  unfold removeInvalidMembers
  by_cases he : (env.roster.getD []).isEmpty
  · simp [he]
  · simp [he, h]

/-- Claim C9, witness: the empty roster produces no state and no removals. -/
theorem C9_zero_candidates_witness :
    removeInvalidMembers emptyRosterEnv [] (some "R") none = (none, []) :=
  C9_zero_candidates emptyRosterEnv [] (some "R") (by decide)

/-- Claim C10: when the bot member cannot be resolved
(`guild.members.me` is null), the authority gate is bypassed and a
removal call is issued for every processed candidate marked for removal,
regardless of its authority level. -/
theorem C10_missing_bot_bypasses_gate (ok : String → Bool) (c : Candidate)
    (hid : c.id ≠ "") (hsr : c.shouldRemove = true) :
    (processOne none ok c).attempted = true := by
  have hden : authorityDenied none c = false := by
    unfold authorityDenied
    cases c.highestRolePosition <;> rfl
  simp only [processOne, if_neg hid, hsr, hden]
  by_cases hok : ok c.id = true <;> simp [hok]

/-- Claim C10, witness: with no bot member, a removal call is issued even for a
candidate of authority 1000. -/
theorem C10_missing_bot_bypasses_gate_witness :
    (processOne none removeAlwaysSucceeds candHighAuthority).attempted = true :=
  C10_missing_bot_bypasses_gate removeAlwaysSucceeds candHighAuthority
    (by decide) (by decide)

/-- Claim C3: for a queue of N candidates built by a fresh pass, consuming it
over ceil(N/B) invocations, each taking up to B candidates from the front,
removes exactly the members a single invocation with batch size N removes;
after those invocations the per-group state is deleted, and across the
pass the state is deleted after j invocations exactly when the whole
queue fits in j batches. -/
theorem C3_resumability (bp : Option Nat) (ok : String → Bool) (B : Nat)
    (q : List Candidate) (hB : 0 < B) (hq : q ≠ []) :
    (runInvocations B bp ok ((q.length + B - 1) / B)
        (freshState q)).removedIds =
      (applyBatch q.length bp ok (freshState q)).removedIds ∧
    (runInvocations B bp ok ((q.length + B - 1) / B) (freshState q)).state =
      none ∧
    (∀ j, (runInvocations B bp ok j (freshState q)).state = none ↔
      q.length ≤ j * B) := by
  have hNpos : 0 < q.length := List.length_pos.2 hq
  have hrem : (freshState q).remainingMembers = q := rfl
  have hkB : q.length ≤ ((q.length + B - 1) / B) * B := by
    rw [Nat.mul_comm]
    have h1 := Nat.div_add_mod (q.length + B - 1) B
    have h2 := Nat.mod_lt (q.length + B - 1) hB
    omega
  have hk1 : 1 ≤ (q.length + B - 1) / B := by
    rw [Nat.le_div_iff_mul_le hB]
    omega
  have hcomp := runInvocations_complete B bp ok hB ((q.length + B - 1) / B)
    (freshState q) hk1 (by rw [hrem]; exact hkB)
  have hsingle := applyBatch_of_le q.length bp ok (freshState q)
    (by rw [hrem]; exact hq) (by rw [hrem])
  refine ⟨?_, ?_, ?_⟩
  · rw [hcomp, hsingle]
  · rw [hcomp]
  · intro j
    constructor
    · intro hj
      by_contra hlt
      push_neg at hlt
      obtain ⟨s2, hs2, _⟩ := runInvocations_incomplete B bp ok hB j
        (freshState q) (by rw [hrem]; exact hlt)
      rw [hj] at hs2
      exact Option.noConfusion hs2
    · intro hj
      have hj1 : 1 ≤ j := by
        rcases Nat.eq_zero_or_pos j with h0 | h0
        · subst h0
          rw [Nat.zero_mul] at hj
          omega
        · exact h0
      rw [runInvocations_complete B bp ok hB j (freshState q) hj1
        (by rw [hrem]; exact hj)]

/-- Claim C3, witness: a two-candidate queue consumed with batch size 1 over
ceil(2/1) = 2 invocations ends with the state deleted. -/
theorem C3_resumability_witness :
    (runInvocations 1 (some 10) removeAlwaysSucceeds
        ((wQueue.length + 1 - 1) / 1) (freshState wQueue)).state = none :=
  (C3_resumability (some 10) removeAlwaysSucceeds 1 wQueue (by decide)
    (by decide)).2.1

/-- Claim C4: the concurrency guard makes a trigger for a thread already being
processed a no-op (state unchanged, nothing removed), and on every exit
path of the entry point the `processingThreads` set is restored to its
previous value, so a completed invocation never leaves the thread locked. -/
theorem C4_concurrency_guard (env : TriggerEnv) (ignoredRoles : List String)
    (requiredRoleId : Option String) (tid : String) (st : TrackerState) :
    (st.processingThreads.contains tid = true →
      checkThreadMembers env ignoredRoles requiredRoleId tid st = (st, [])) ∧
    (checkThreadMembers env ignoredRoles requiredRoleId tid
        st).1.processingThreads = st.processingThreads := by
  constructor
  · intro h
    unfold checkThreadMembers
    rw [if_pos h]
  · by_cases h : st.processingThreads.contains tid = true
    · unfold checkThreadMembers
      rw [if_pos h]
    · unfold checkThreadMembers
      rw [if_neg h]
      cases hcfg : lookupConfig tid st.trackedThreads with
      | none => simp [hcfg, List.erase_cons_head]
      | some cfg =>
        by_cases hf : env.threadFetchOk = false
        · simp [hcfg, hf, List.erase_cons_head]
        · simp [hcfg, hf, List.erase_cons_head]

/-- Claim C4, witness: with thread t1 already being processed, a second trigger
for t1 changes nothing and removes nobody. -/
theorem C4_concurrency_guard_witness :
    checkThreadMembers wTriggerEnv [] (some "R") "t1" wLockedState =
      (wLockedState, []) :=
  (C4_concurrency_guard wTriggerEnv [] (some "R") "t1" wLockedState).1
    (by decide)

/-- Claim C5: the fresh state satisfies the counter invariant, and every batch
application that persists a state keeps the remaining queue no longer
than before, preserves the invariant, keeps `processedCount` at most
`totalCount`, and keeps the processed count bounded by `totalCount` at
every intermediate point of the batch (for every prefix of the batch). -/
theorem C5_state_invariants (bp : Option Nat) (ok : String → Bool) (B : Nat)
    (q : List Candidate) (s s2 : RemovalState)
    (hInv : stateInv s) (h : (applyBatch B bp ok s).state = some s2) :
    stateInv (freshState q) ∧
    s2.remainingMembers.length ≤ s.remainingMembers.length ∧
    stateInv s2 ∧
    s2.processedCount ≤ s2.totalCount ∧
    (∀ pre suf, s.remainingMembers.take B = pre ++ suf →
      s.processedCount + batchProcessed bp ok pre ≤ s.totalCount) := by
  obtain ⟨hBpos, hlt, hs2⟩ := applyBatch_state_some B bp ok s s2 h
  unfold stateInv at hInv ⊢
  have hlen_take : (s.remainingMembers.take B).length = B := by
    rw [List.length_take]
    omega
  have hlen_drop : (s.remainingMembers.drop B).length =
      s.remainingMembers.length - B := List.length_drop B s.remainingMembers
  refine ⟨?_, ?_, ?_, ?_, ?_⟩
  · show 0 + q.length ≤ q.length
    omega
  · rw [hs2]
    show (s.remainingMembers.drop B).length ≤ s.remainingMembers.length
    omega
  · rw [hs2]
    show s.processedCount + batchProcessed bp ok (s.remainingMembers.take B) +
        (s.remainingMembers.drop B).length ≤ s.totalCount
    have hbp := batchProcessed_le bp ok (s.remainingMembers.take B)
    omega
  · rw [hs2]
    show s.processedCount + batchProcessed bp ok (s.remainingMembers.take B) ≤
      s.totalCount
    have hbp := batchProcessed_le bp ok (s.remainingMembers.take B)
    omega
  · intro pre suf hps
    have hlenps := congrArg List.length hps
    rw [List.length_append, hlen_take] at hlenps
    have hbp := batchProcessed_le bp ok pre
    omega

/-- Claim C5, witness: applying one batch of size 1 to a fresh two-candidate
state leaves a one-candidate queue, no longer than the original. -/
theorem C5_state_invariants_witness :
    (⟨1, 2, [candMismatch]⟩ : RemovalState).remainingMembers.length ≤
      (freshState wQueue).remainingMembers.length :=
  (C5_state_invariants (some 10) removeAlwaysSucceeds 1 wQueue
    (freshState wQueue) ⟨1, 2, [candMismatch]⟩ (by decide) (by decide)).2.1

/-- Claim C6: a candidate whose removal call fails contributes no
`processedCount` increment and no removal, while the removal call was
issued once; the batch is consumed off the queue (the persisted queue is
the old queue with the batch dropped, so nothing is requeued); and over a
whole pass on a queue with distinct member ids, at most one removal call
is issued per member id. -/
theorem C6_failed_removal_single_attempt (bp : Option Nat)
    (ok : String → Bool) (B k : Nat) (s s2 : RemovalState)
    (q : List Candidate) (c : Candidate) (mid : String) (hB : 0 < B)
    (hfail : ok c.id = false)
    (hatt : (processOne bp ok c).attempted = true)
    (hsome : (applyBatch B bp ok s).state = some s2)
    (hnodup : (q.map Candidate.id).Nodup) :
    processOne bp ok c = ⟨false, true, false⟩ ∧
    s2.remainingMembers = s.remainingMembers.drop B ∧
    (runInvocations B bp ok k (freshState q)).attemptedIds.count mid ≤ 1 := by
  refine ⟨?_, ?_, ?_⟩
  · by_cases h1 : c.id = ""
    · rw [processOne, if_pos h1] at hatt
      exact absurd hatt (by decide)
    · by_cases h2 : c.shouldRemove = false
      · rw [processOne, if_neg h1, if_pos h2] at hatt
        exact absurd hatt (by decide)
      · by_cases h3 : authorityDenied bp c = true
        · rw [processOne, if_neg h1, if_neg h2, if_pos h3] at hatt
          exact absurd hatt (by decide)
        · rw [processOne, if_neg h1, if_neg h2, if_neg h3,
            if_neg (by rw [hfail]; exact Bool.false_ne_true)]
  · obtain ⟨_, _, hs2⟩ := applyBatch_state_some B bp ok s s2 hsome
    rw [hs2]
  · rw [runInvocations_attemptedIds B bp ok hB k (freshState q)]
    have hsub : List.Sublist
        (batchAttemptedIds bp ok
          ((freshState q).remainingMembers.take (k * B)))
        (q.map Candidate.id) := by
      unfold batchAttemptedIds
      exact ((List.filter_sublist _).trans (List.take_sublist _ _)).map _
    exact le_trans (hsub.count_le mid)
      (List.nodup_iff_count_le_one.1 hnodup mid)

/-- Claim C6, witness: a role-mismatch candidate whose removal call fails is
processed with a single issued call, no increment, and no removal. -/
theorem C6_failed_removal_single_attempt_witness :
    processOne none removeAlwaysFails candMismatch = ⟨false, true, false⟩ :=
  (C6_failed_removal_single_attempt none removeAlwaysFails 1 3
    (freshState wQueue) ⟨0, 2, [candMismatch]⟩ wQueue candMismatch "B"
    (by decide) (by decide) (by decide) (by decide) (by decide)).1

/-- Claim C7: a failed roster fetch aborts the trigger's pass with the
pre-existing reconciliation state returned exactly as it was and no
removal issued, so the next trigger resumes unchanged; moreover the entry
point never changes the configuration of any other thread, so the
failure is confined to the one group. -/
theorem C7_fetch_failure_preserves_state (env : PassEnv)
    (ignoredRoles : List String) (requiredRoleId : Option String)
    (st0 : Option RemovalState) (hfail : env.roster = none) :
    removeInvalidMembers env ignoredRoles requiredRoleId st0 = (st0, []) ∧
    (∀ (tenv : TriggerEnv) (tid tid2 : String) (st : TrackerState),
      tid2 ≠ tid →
      lookupConfig tid2 (checkThreadMembers tenv ignoredRoles requiredRoleId
          tid st).1.trackedThreads =
        lookupConfig tid2 st.trackedThreads) := by
  constructor
  · unfold removeInvalidMembers
    rw [hfail]
    rfl
  · intro tenv tid tid2 st hne
    unfold checkThreadMembers
    by_cases hproc : st.processingThreads.contains tid = true
    · rw [if_pos hproc]
    · rw [if_neg hproc]
      cases hcfg : lookupConfig tid st.trackedThreads with
      | none => simp [hcfg]
      | some cfg =>
        by_cases hf : tenv.threadFetchOk = false
        · simp [hcfg, hf]
        · simp [hcfg, hf, lookupConfig_setConfig_ne tid tid2 _ _ hne]

/-- Claim C7, witness: with a failing roster fetch, an in-progress state is
returned untouched and nobody is removed. -/
theorem C7_fetch_failure_preserves_state_witness :
    removeInvalidMembers failEnv [] (some "R") (some (freshState wQueue)) =
      (some (freshState wQueue), []) :=
  (C7_fetch_failure_preserves_state failEnv [] (some "R")
    (some (freshState wQueue)) rfl).1

end Contentoor
